import Mathlib

/-!
Verification of the flow-graph engine of the `trading-indi` repository.

The development shallowly embeds:

* `OpAdapter` / path resolution, translated from `src/flow/utils.ts`;
* `OpRegistry`, translated from `src/flow/Registry.ts` (register / get / has);
* the schema validator `validateGraphSchema`, the complexity metric
  `graphComplexity` and the loader `Graph.fromJSON`, whose implementation
  files (`src/flow/Schema.ts`, `src/flow/Graph.ts`) are not part of the
  sources available here; they are modelled from the specification and from
  the behaviour pinned down by the repository tests;
* an abstract FIFO pass/callback queue modelling the executor ordering
  guarantee described in the specification.

JavaScript values are modelled without `null` (no claim depends on it); the
JavaScript `undefined` is modelled as `Option.none`.
-/

namespace TradingIndi

/-- a JavaScript value as it occurs in graph snapshots: a primitive or a
string-keyed object.  `undefined` is represented externally as `Option.none`. -/
inductive JsValue where
  | num (n : Int)
  | str (s : String)
  | bool (b : Bool)
  | obj (fields : List (String × JsValue))

/-- a value snapshot: a string-keyed record of current values. -/
abbrev Snapshot : Type := List (String × JsValue)

/-- lookup of a key in a snapshot; a missing key is JavaScript `undefined`. -/
def snapGet (s : Snapshot) (k : String) : Option JsValue :=
  match s.find? (fun p => p.1 = k) with
  | some p => some p.2
  | none => none

/-- property access `v[key]` on a JavaScript value: objects look the key up in
their fields, every other (non-null) value yields `undefined`. -/
def jsIndex (v : JsValue) (key : String) : Option JsValue :=
  match v with
  | .obj fields =>
    match fields.find? (fun p => p.1 = key) with
    | some p => some p.2
    | none => none
  | _ => none

/-- preprocessed path for state lookup, from `src/flow/utils.ts`: either a
flat key (fast path) or a list of nested segments. -/
inductive ParsedPath where
  | flat (key : String)
  | nested (parts : List String)
deriving DecidableEq, Repr

/-- the JavaScript `path.includes(".")` test, implemented structurally over
the character list of the string. -/
def containsDot (s : String) : Bool := s.data.contains '.'

/-- splitting accumulator for `splitOnDot`: walks the character list,
cutting a new segment at every dot. -/
def splitDotAux : List Char → List Char → List String
  | [], acc => [String.mk acc.reverse]
  | c :: rest, acc =>
    if c = '.' then String.mk acc.reverse :: splitDotAux rest []
    else splitDotAux rest (c :: acc)

/-- the JavaScript `path.split(".")`, implemented structurally over the
character list of the string. -/
def splitOnDot (s : String) : List String := splitDotAux s.data []

/-- construction-time parsing of one dependency specifier, from the
`OpAdapter` constructor: `if (!path || !path.includes(".")) flat(path || "")
else nested(path.split("."))`. -/
def parsePath (path : String) : ParsedPath :=
  if path = "" || !(containsDot path) then ParsedPath.flat path
  else ParsedPath.nested (splitOnDot path)

/-- the nested-lookup loop of `predSatisfied`: starting from the value of the
first segment, index by each further segment while the value is defined. -/
def walkSegs : Option JsValue → List String → Option JsValue
  | none, _ => none
  | some v, [] => some v
  | some v, p :: rest => walkSegs (jsIndex v p) rest

/-- resolution of one parsed path against a snapshot, from
`OpAdapter.predSatisfied`: flat keys are one direct lookup, nested paths walk
the segments, short-circuiting once the value becomes `undefined`. -/
def resolveParsed (state : Snapshot) : ParsedPath → Option JsValue
  | .flat key => snapGet state key
  | .nested parts =>
    match parts with
    | [] => none
    | p0 :: rest => walkSegs (snapGet state p0) rest

/-- an operator wrapped for graph use: the wrapped `update` function together
with the raw input paths, as in `OpAdapter` from `src/flow/utils.ts`. -/
structure OpAdapter where
  op : List (Option JsValue) → Option JsValue
  inputPath : List String

/-- the paths parsed once at construction time (`this.parsedPaths`). -/
def OpAdapter.parsedPaths (a : OpAdapter) : List ParsedPath :=
  a.inputPath.map parsePath

/-- `predSatisfied(state)`: resolve every stored parsed path against the
snapshot and unconditionally invoke the wrapped operator on the results. -/
def OpAdapter.predSatisfied (a : OpAdapter) (state : Snapshot) : Option JsValue :=
  a.op (a.parsedPaths.map (resolveParsed state))

/-- static operator metadata; only the self-declared type name matters here
(`OperatorDoc.type` in `src/types/OpDoc.ts`). -/
structure OperatorDoc where
  type : String
deriving DecidableEq, Repr

/-- an operator constructor as the registry sees it: an identity tag (so that
distinct constructors are distinguishable) and the optional static `doc`. -/
structure Ctor where
  id : Nat
  doc : Option OperatorDoc
deriving DecidableEq, Repr

/-- the registry state: the underlying `Map` from type names to constructors,
modelled as an association list with JavaScript `Map.set` semantics. -/
abbrev Registry : Type := List (String × Ctor)

/-- `Map.set`: replace the value under an existing key in place, otherwise
append the new binding at the end (JavaScript `Map` insertion-order
semantics). -/
def mapSet : Registry → String → Ctor → Registry
  | [], k, v => [(k, v)]
  | (a, b) :: rest, k, v =>
    if a = k then (k, v) :: rest else (a, b) :: mapSet rest k v

/-- `OpRegistry.get(name)`: the constructor registered under `name`, if any. -/
def regGet : Registry → String → Option Ctor
  | [], _ => none
  | (a, b) :: rest, k => if a = k then some b else regGet rest k

/-- `OpRegistry.has(name)`: existence check on the underlying map. -/
def regHas : Registry → String → Bool
  | [], _ => false
  | (a, _) :: rest, k => a = k || regHas rest k

/-- `OpRegistry.register(ctor)`: reads `ctor.doc`, rejects a missing doc or a
falsy (empty) type name (`if (!doc?.type) throw`), otherwise stores the
constructor under `doc.type`. -/
def register (m : Registry) (ctor : Ctor) : Except String Registry :=
  match ctor.doc with
  | none => Except.error "Constructor must have static doc.type property"
  | some d =>
    if d.type = "" then Except.error "Constructor must have static doc.type property"
    else Except.ok (mapSet m d.type ctor)

/-- the self-declared type name carried by a constructor: the static
`doc.type` when present and non-empty (JavaScript truthiness treats the empty
string like an absent name). -/
def declaredTypeName (c : Ctor) : Option String :=
  match c.doc with
  | none => none
  | some d => if d.type = "" then none else some d.type

/-- Modelled from the spec: the `inputSrc` field of a descriptor node
(`string[] | string`, optional); omitted, an empty string, or an empty list
denotes no dependency. -/
inductive InputSrc where
  | absent
  | single (s : String)
  | strings (ss : List String)
deriving DecidableEq, Repr

/-- normalisation of an `inputSrc` field to a list of specifier strings. -/
def InputSrc.toList : InputSrc → List String
  | .absent => []
  | .single s => if s = "" then [] else [s]
  | .strings ss => ss

/-- Modelled from the spec: one node entry of a graph descriptor
(`{ name, type, init?, inputSrc? }`); `init` carries no information used by
validation or loading structure and is omitted. -/
structure NodeSchema where
  name : String
  type : String
  inputSrc : InputSrc
deriving DecidableEq, Repr

/-- Modelled from the spec: a graph descriptor `{ root, nodes }`. -/
structure GraphSchema where
  root : String
  nodes : List NodeSchema
deriving DecidableEq, Repr

/-- the non-empty dependency specifiers of a node entry. -/
def NodeSchema.deps (n : NodeSchema) : List String :=
  n.inputSrc.toList.filter (fun s => s ≠ "")

/-- the first dot-segment of a dependency specifier: the identifier that must
resolve to the root or to a node name. -/
def firstSeg (p : String) : String :=
  (splitOnDot p).headD ""

/-- a validation error, one of the four tagged variants of the validation
result shape (`structure` / `unknown_type` / `cycle` / `unreachable`). -/
inductive GraphError where
  | struct (path : String) (message : String)
  | unknown_type (node : String) (opType : String)
  | cycle (nodes : List String)
  | unreachable (nodes : List String)
deriving DecidableEq, Repr

/-- a validation result `{ valid, errors }`. -/
structure GraphSchemaValidationResult where
  valid : Bool
  errors : List GraphError
deriving DecidableEq, Repr

/-- the node names of a descriptor, in file order. -/
def GraphSchema.names (d : GraphSchema) : List String :=
  d.nodes.map (fun n => n.name)

/-- Modelled from the spec: phase 1 (structure).  Every node entry has a name
and a type and names are unique.  In this typed embedding a missing required
field is represented by the empty string. -/
def structureErrorsAux : List String → List NodeSchema → List GraphError
  | _, [] => []
  | seen, n :: rest =>
    ((if n.name = "" then [GraphError.struct n.name "missing required field: name"] else []) ++
     (if n.type = "" then [GraphError.struct n.name "missing required field: type"] else []) ++
     (if seen.contains n.name then [GraphError.struct n.name "duplicate node name"] else [])) ++
    structureErrorsAux (n.name :: seen) rest

/-- structure-phase errors of a descriptor. -/
def structureErrors (d : GraphSchema) : List GraphError :=
  structureErrorsAux [] d.nodes

/-- Modelled from the spec: phase 2 (unknown type).  One `unknown_type` error
per node whose declared type is absent from the registry, carrying the node
name and the bad type name. -/
def unknownTypeErrors (d : GraphSchema) (reg : Registry) : List GraphError :=
  d.nodes.filterMap (fun n =>
    if regHas reg n.type then none
    else some (GraphError.unknown_type n.name n.type))

/-- successors of an identifier in the dependency graph used by the cycle
search: the nodes that declare a dependency whose first segment is that
identifier. -/
def succOf (d : GraphSchema) (x : String) : List String :=
  (d.nodes.filter (fun n => n.deps.any (fun p => firstSeg p = x))).map (fun n => n.name)

/-- the discovered cycle when the depth-first search meets the gray node `x`:
the portion of the gray stack down to (and including) `x`. -/
def cycleSeg (x : String) (gray : List String) : List String :=
  gray.takeWhile (fun y => y ≠ x) ++ [x]

/-- Modelled from the spec: phase 3 (cycle), a fuelled depth-first traversal
from the root over resolvable dependency edges with a gray stack and a black
set; a back-edge to a gray node yields the discovered cycle (`Sum.inl`),
otherwise the accumulated black set is returned (`Sum.inr`). -/
def dfsAux (succ : String → List String) :
    Nat → List String → List String → List String → Sum (List String) (List String)
  | 0, _, black, _ => Sum.inr black
  | _ + 1, _, black, [] => Sum.inr black
  | fuel + 1, gray, black, x :: rest =>
    if black.contains x then dfsAux succ fuel gray black rest
    else if gray.contains x then Sum.inl (cycleSeg x gray)
    else
      match dfsAux succ fuel (x :: gray) black (succ x) with
      | Sum.inl cyc => Sum.inl cyc
      | Sum.inr black2 => dfsAux succ fuel gray (x :: black2) rest

/-- cycle detection for a descriptor: the node list of a discovered cycle, if
the depth-first search from the root finds a back-edge. -/
def cycleCheck (d : GraphSchema) : Option (List String) :=
  let fuel := (d.nodes.length + 2) * (d.nodes.length + 2)
  match dfsAux (succOf d) fuel [] [] [d.root] with
  | Sum.inl cyc => some cyc
  | Sum.inr _ => none

/-- Modelled from the spec: the referenced identifiers that never resolve to
the root or to any node, without duplicates, in order of first occurrence. -/
def unresolvedIds (d : GraphSchema) : List String :=
  ((d.nodes.flatMap (fun n => n.deps.map firstSeg)).filter
    (fun x => x ≠ d.root && !(d.names.contains x))).eraseDups

/-- one step of the reachability closure: add every node that has no
dependencies (such a node runs unconditionally) or has some dependency whose
first segment is already reachable. -/
def reachStep (d : GraphSchema) (R : List String) : List String :=
  R ++ (d.nodes.filter (fun n =>
    !(R.contains n.name) &&
      (n.deps.isEmpty || n.deps.any (fun p => R.contains (firstSeg p))))).map (fun n => n.name)

/-- the set of identifiers reachable from the root by following resolvable
dependency edges (the fixpoint is reached after at most `|nodes|` steps). -/
def reachSet (d : GraphSchema) : List String :=
  (reachStep d)^[d.nodes.length + 1] [d.root]

/-- the node names not reachable from the root, in file order. -/
def unreachableNodes (d : GraphSchema) : List String :=
  (d.nodes.filter (fun n => !(reachSet d).contains n.name)).map (fun n => n.name)

/-- Modelled from the spec: phase 4 (unreachable).  Unreachable node names and
unresolvable referenced identifiers are unioned into the `nodes` list of a
single `unreachable` error. -/
def unreachableErrors (d : GraphSchema) : List GraphError :=
  if unreachableNodes d ++ unresolvedIds d = [] then []
  else [GraphError.unreachable (unreachableNodes d ++ unresolvedIds d)]

/-- Modelled from the spec: `validateGraphSchema(descriptor, registry)` runs
the four phases in order (structure, unknown type, cycle, unreachable) and
reports only the first phase that produced any error. -/
def validateGraphSchema (d : GraphSchema) (reg : Registry) : GraphSchemaValidationResult :=
  match structureErrors d with
  | e :: es => ⟨false, e :: es⟩
  | [] =>
    match unknownTypeErrors d reg with
    | e :: es => ⟨false, e :: es⟩
    | [] =>
      match cycleCheck d with
      | some cyc => ⟨false, [GraphError.cycle cyc]⟩
      | none =>
        match unreachableErrors d with
        | e :: es => ⟨false, e :: es⟩
        | [] => ⟨true, []⟩

/-- Modelled from the spec: `graphComplexity` edge counting, folding over the
node list and counting every non-empty dependency specifier. -/
def edgeCountAux : List NodeSchema → Nat
  | [] => 0
  | n :: rest => n.deps.length + edgeCountAux rest

/-- Modelled from the spec: `graphComplexity(descriptor) = nodeCount +
edgeCount`. -/
def graphComplexity (d : GraphSchema) : Nat :=
  d.nodes.length + edgeCountAux d.nodes

/-- a constructed graph node: the node name, the identity of the constructor
the loader resolved for it, and its declared input paths. -/
structure GraphNode where
  name : String
  ctorId : Nat
  inputPath : List String
deriving DecidableEq, Repr

/-- a constructed graph: the root name and the constructed node list. -/
structure Graph where
  root : String
  nodes : List GraphNode
deriving DecidableEq, Repr

/-- the single-quote character, used to build the loader error message. -/
def singleQuote : String := String.singleton (Char.ofNat 39)

/-- a string wrapped in single quotes. -/
def quoted (s : String) : String := singleQuote ++ s ++ singleQuote

/-- the loader failure message pinned down by the repository test suite:
`Unknown type <t> for node <n>` with both names single-quoted. -/
def unknownTypeMsg (t n : String) : String :=
  "Unknown type " ++ quoted t ++ " for node " ++ quoted n

/-- Modelled from the spec: the loader walk over the descriptor node list in
file order, failing fast on the first entry whose declared type has no
registry entry. -/
def fromJSONAux (reg : Registry) : List NodeSchema → Except String (List GraphNode)
  | [] => Except.ok []
  | n :: rest =>
    match regGet reg n.type with
    | none => Except.error (unknownTypeMsg n.type n.name)
    | some c =>
      match fromJSONAux reg rest with
      | Except.error e => Except.error e
      | Except.ok gs => Except.ok (⟨n.name, c.id, n.inputSrc.toList⟩ :: gs)

/-- Modelled from the spec: `Graph.fromJSON(descriptor, registry)`, an
all-or-nothing synchronous construction that either yields the full graph or
raises the unknown-type error. -/
def fromJSON (d : GraphSchema) (reg : Registry) : Except String Graph :=
  match fromJSONAux reg d.nodes with
  | Except.error e => Except.error e
  | Except.ok gs => Except.ok ⟨d.root, gs⟩

/-- Modelled from the spec: the observable state of the executor's
event/callback machinery.  `pending` is the FIFO queue of submitted event
indices not yet started, `current` is the callback queue of the pass in
flight (event index paired with the visit position of the node that produced
the callback), `log` is the sequence of callbacks dispatched so far, and
`submitted` numbers the next event to be submitted. -/
structure EngineState where
  pending : List Nat
  current : List (Nat × Nat)
  log : List (Nat × Nat)
  submitted : Nat
deriving DecidableEq, Repr

/-- the callbacks a pass for event `e` generates, in node-visit order; the
number of callbacks per event is an arbitrary parameter `cbs`. -/
def callbacksOf (cbs : Nat → Nat) (e : Nat) : List (Nat × Nat) :=
  (List.range (cbs e)).map (fun i => (e, i))

/-- Modelled from the spec: one step of the executor.  A caller may submit a
new event at any time (it is enqueued); a queued pass begins only when the
previous pass's callback queue has fully drained; dispatching pops the head
of the current callback queue. -/
inductive EngStep (cbs : Nat → Nat) : EngineState → EngineState → Prop where
  | submit (s : EngineState) :
      EngStep cbs s ⟨s.pending ++ [s.submitted], s.current, s.log, s.submitted + 1⟩
  | startPass (s : EngineState) (e : Nat) (rest : List Nat)
      (hcur : s.current = []) (hp : s.pending = e :: rest) :
      EngStep cbs s ⟨rest, callbacksOf cbs e, s.log, s.submitted⟩
  | dispatch (s : EngineState) (c : Nat × Nat) (rest : List (Nat × Nat))
      (hc : s.current = c :: rest) :
      EngStep cbs s ⟨s.pending, rest, s.log ++ [c], s.submitted⟩

/-- the executor before any event is submitted. -/
def initEngine : EngineState := ⟨[], [], [], 0⟩

/-- the states the executor can reach from the initial state. -/
def Reachable (cbs : Nat → Nat) (s : EngineState) : Prop :=
  Relation.ReflTransGen (EngStep cbs) initEngine s

/-- the required dispatch order on callbacks: strictly earlier event, or the
same event with a strictly earlier node-visit position. -/
def CbBefore (c1 c2 : Nat × Nat) : Prop :=
  c1.1 < c2.1 ∨ (c1.1 = c2.1 ∧ c1.2 < c2.2)

/-- the inductive invariant of the executor: dispatched and queued callbacks
are jointly ordered, every queued event is newer than every produced
callback, the pending queue is strictly increasing, and all indices are below
the submission counter. -/
structure EngInv (s : EngineState) : Prop where
  ordered : List.Pairwise CbBefore (s.log ++ s.current)
  beforePending : ∀ c ∈ s.log ++ s.current, ∀ f ∈ s.pending, c.1 < f
  pendingSorted : List.Pairwise (· < ·) s.pending
  pendingLt : ∀ f ∈ s.pending, f < s.submitted
  cbLt : ∀ c ∈ s.log ++ s.current, c.1 < s.submitted

/-- a dependency edge `x → y` of a descriptor: the node named `y` declares a
dependency whose first segment is `x`. -/
def dependsOnEdge (d : GraphSchema) (x y : String) : Bool :=
  match d.nodes.find? (fun n => n.name = y) with
  | some n => n.deps.any (fun p => firstSeg p = x)
  | none => false

/-- every consecutive pair of the list is a dependency edge. -/
def chainEdges (d : GraphSchema) : List String → Bool
  | [] => true
  | [_] => true
  | x :: y :: rest => dependsOnEdge d x y && chainEdges d (y :: rest)

/-- the list is a cycle of the dependency graph: non-empty, consecutive
elements are edges, and the last element has an edge back to the first. -/
def isCycleList (d : GraphSchema) (l : List String) : Bool :=
  match l with
  | [] => false
  | x :: _ => chainEdges d (l ++ [x])

/-- fixture: a descriptor whose two nodes both have an unregistered type and
also form a dependency cycle. -/
def dUnknownCycle : GraphSchema :=
  ⟨"tick", [⟨"x", "Unknown", InputSrc.strings ["y"]⟩,
            ⟨"y", "Unknown", InputSrc.strings ["x"]⟩]⟩

/-- fixture: the empty registry. -/
def regEmpty : Registry := []

/-- fixture: a generic operator constructor declaring type name `Op`. -/
def ctorOp : Ctor := ⟨0, some ⟨"Op"⟩⟩

/-- fixture: a registry with the single type `Op`. -/
def regOp : Registry := [("Op", ctorOp)]

/-- fixture: a node with two dependencies on identifiers that exist nowhere,
mirroring the repository test with `inputPath: [missing1, missing2]`. -/
def dMultiMissing : GraphSchema :=
  ⟨"tick", [⟨"node1", "Op", InputSrc.strings ["missing1", "missing2"]⟩]⟩

/-- fixture: the three-node cycle descriptor of the repository test
(root `a`; `a` depends on `c`, `b` on `a`, `c` on `b`). -/
def dCycle : GraphSchema :=
  ⟨"a", [⟨"a", "Op", InputSrc.strings ["c"]⟩,
         ⟨"b", "Op", InputSrc.strings ["a"]⟩,
         ⟨"c", "Op", InputSrc.strings ["b"]⟩]⟩

/-- fixture: the unknown-type loader descriptor of the repository test
(node `ema` of unregistered type `UnknownIndicator`). -/
def dUnknownInd : GraphSchema :=
  ⟨"tick", [⟨"ema", "UnknownIndicator", InputSrc.strings ["tick"]⟩]⟩

/-- fixture: the one-node complexity example from the spec. -/
def dComplexitySimple : GraphSchema :=
  ⟨"tick", [⟨"ema", "EMA", InputSrc.strings ["tick"]⟩]⟩

/-- fixture: the three-node, four-edge complexity example from the spec. -/
def dComplexityLarger : GraphSchema :=
  ⟨"tick", [⟨"a", "Op", InputSrc.strings ["tick"]⟩,
            ⟨"b", "Op", InputSrc.strings ["tick"]⟩,
            ⟨"c", "Op", InputSrc.strings ["a", "b"]⟩]⟩

/-- fixture: an EMA-like constructor with a declared type name. -/
def ctorEMA : Ctor := ⟨0, some ⟨"EMA"⟩⟩

/-- fixture: a constructor without a static doc. -/
def ctorNoDoc : Ctor := ⟨1, none⟩

/-- fixture: first constructor declaring type name `T`. -/
def ctorA : Ctor := ⟨0, some ⟨"T"⟩⟩

/-- fixture: second, distinct constructor also declaring type name `T`. -/
def ctorB : Ctor := ⟨1, some ⟨"T"⟩⟩

/-- fixture: a callback-count function for the executor witness run (two
listener callbacks per event). -/
def cbsTwo : Nat → Nat := fun _ => 2

/-- fixture: the executor state after submitting events 0 and 1 without
awaiting, draining event 0, starting event 1 and dispatching its first
callback. -/
def engWitState : EngineState := ⟨[], [(1, 1)], [(0, 0), (0, 1), (1, 0)], 2⟩

/-- fixture: a snapshot for path-resolution tests, with a nested object
under `tick`. -/
def snapTick : Snapshot := [("tick", JsValue.obj [("price", JsValue.num 100)])]

/-- fixture: a snapshot whose `a` entry is an object without a `b` field, so
a walk of `a.b.c` short-circuits at the second segment. -/
def snapShort : Snapshot := [("a", JsValue.obj [("z", JsValue.num 1)])]

/-! ### Registry lemmas -/

theorem regGet_mapSet_self (m : Registry) (k : String) (v : Ctor) :
    regGet (mapSet m k v) k = some v := by
  induction m with
  | nil => simp [mapSet, regGet]
  | cons p rest ih =>
    obtain ⟨a, b⟩ := p
    by_cases h : a = k
    · simp [mapSet, h, regGet]
    · simp [mapSet, h, regGet, ih]

theorem regGet_mapSet_ne (m : Registry) (k n : String) (v : Ctor) (hne : n ≠ k) :
    regGet (mapSet m k v) n = regGet m n := by
  induction m with
  | nil => simp [mapSet, regGet, hne.symm]
  | cons p rest ih =>
    obtain ⟨a, b⟩ := p
    by_cases h : a = k
    · subst h
      simp [mapSet, regGet, hne.symm]
    · simp [mapSet, h, regGet, ih]

theorem regHas_eq_isSome (m : Registry) (n : String) :
    regHas m n = (regGet m n).isSome := by
  induction m with
  | nil => simp [regHas, regGet]
  | cons p rest ih =>
    obtain ⟨a, b⟩ := p
    by_cases h : a = n
    · simp [regHas, regGet, h]
    · simp [regHas, regGet, h, ih]

theorem register_ok_iff (m : Registry) (c : Ctor) :
    (∃ m2, register m c = Except.ok m2) ↔ (declaredTypeName c).isSome = true := by
  cases hd : c.doc with
  | none => simp [register, declaredTypeName, hd]
  | some d =>
    by_cases ht : d.type = ""
    · simp [register, declaredTypeName, hd, ht]
    · simp [register, declaredTypeName, hd, ht]

theorem register_ok_eq (m : Registry) (c : Ctor) (t : String)
    (h : declaredTypeName c = some t) :
    register m c = Except.ok (mapSet m t c) := by
  cases hd : c.doc with
  | none => simp [declaredTypeName, hd] at h
  | some d =>
    by_cases ht : d.type = ""
    · simp [declaredTypeName, hd, ht] at h
    · simp [declaredTypeName, hd, ht] at h
      subst h
      simp [register, hd, ht]

/-! ### Path-resolution lemmas -/

theorem walkSegs_none (l : List String) : walkSegs none l = none := by
  cases l <;> rfl

theorem walkSegs_append (l1 l2 : List String) (o : Option JsValue) :
    walkSegs o (l1 ++ l2) = walkSegs (walkSegs o l1) l2 := by
  induction l1 generalizing o with
  | nil => cases o <;> simp [walkSegs]
  | cons p rest ih =>
    cases o with
    | none => simp [walkSegs]
    | some v => simp [walkSegs, ih]

/-- C8: `OpRegistry.register(ctor)` raises an error if and only if the
constructor carries no self-declared type name (its static `doc.type`, where
JavaScript truthiness treats the empty string like an absent name); when it
succeeds it stores the constructor under that declared name, after which
`get` returns exactly that constructor (and is untouched for other names)
and `has` answers existence exactly when `get` finds a constructor; `has`
and `get` are pure reads of the registry value. -/
theorem c8_registry_contract (m : Registry) (c : Ctor) :
    ((∃ m2, register m c = Except.ok m2) ↔ (declaredTypeName c).isSome = true) ∧
    (∀ t m2, declaredTypeName c = some t → register m c = Except.ok m2 →
      regGet m2 t = some c ∧ regHas m2 t = true ∧
        ∀ n, n ≠ t → regGet m2 n = regGet m n) ∧
    (∀ n, regHas m n = (regGet m n).isSome) := by
  refine ⟨register_ok_iff m c, ?_, fun n => regHas_eq_isSome m n⟩
  intro t m2 ht hok
  rw [register_ok_eq m c t ht] at hok
  obtain rfl : mapSet m t c = m2 := by injection hok
  refine ⟨regGet_mapSet_self m t c, ?_, fun n hn => regGet_mapSet_ne m t n c hn⟩
  rw [regHas_eq_isSome, regGet_mapSet_self]
  rfl

/-- C8 witness: registering a constructor with declared type name `EMA` in
the empty registry succeeds and is retrievable, while a constructor without
a static doc is rejected. -/
theorem c8_registry_contract_witness :
    (declaredTypeName ctorEMA = some "EMA" ∧
      register regEmpty ctorEMA = Except.ok [("EMA", ctorEMA)] ∧
      regGet [("EMA", ctorEMA)] "EMA" = some ctorEMA ∧
      regHas [("EMA", ctorEMA)] "EMA" = true) ∧
    ¬∃ m2, register regEmpty ctorNoDoc = Except.ok m2 := by
  constructor
  · refine ⟨rfl, rfl, ?_, ?_⟩
    · exact ((c8_registry_contract regEmpty ctorEMA).2.1 "EMA" [("EMA", ctorEMA)] rfl rfl).1
    · exact ((c8_registry_contract regEmpty ctorEMA).2.1 "EMA" [("EMA", ctorEMA)] rfl rfl).2.1
  · intro hex
    have h := (c8_registry_contract regEmpty ctorNoDoc).1.mp hex
    simp [declaredTypeName, ctorNoDoc] at h

/-- C10: registering a second constructor whose declared `doc.type` equals an
already-registered name never fails: the earlier entry is silently replaced,
`get` afterwards returns the most recently registered constructor, and `has`
remains true. -/
theorem c10_register_last_wins (m : Registry) (c1 c2 : Ctor) (t : String)
    (m1 : Registry) (h1 : declaredTypeName c1 = some t)
    (h2 : declaredTypeName c2 = some t) (hr : register m c1 = Except.ok m1) :
    regHas m1 t = true ∧
      ∃ m2, register m1 c2 = Except.ok m2 ∧
        regGet m2 t = some c2 ∧ regHas m2 t = true := by
  rw [register_ok_eq m c1 t h1] at hr
  obtain rfl : mapSet m t c1 = m1 := by injection hr
  refine ⟨?_, mapSet (mapSet m t c1) t c2, register_ok_eq _ c2 t h2,
    regGet_mapSet_self _ t c2, ?_⟩
  · rw [regHas_eq_isSome, regGet_mapSet_self]
    rfl
  · rw [regHas_eq_isSome, regGet_mapSet_self]
    rfl

/-- C10 witness: two distinct constructors both declaring type name `T`,
registered in sequence starting from the empty registry. -/
theorem c10_register_last_wins_witness :
    (declaredTypeName ctorA = some "T" ∧ declaredTypeName ctorB = some "T" ∧
      register regEmpty ctorA = Except.ok [("T", ctorA)]) ∧
    (regHas [("T", ctorA)] "T" = true ∧
      ∃ m2, register [("T", ctorA)] ctorB = Except.ok m2 ∧
        regGet m2 "T" = some ctorB ∧ regHas m2 "T" = true) :=
  ⟨⟨rfl, rfl, rfl⟩,
    c10_register_last_wins regEmpty ctorA ctorB "T" [("T", ctorA)] rfl rfl rfl⟩

/-- edge counting is the sum over nodes of the number of non-empty
dependency specifiers. -/
theorem edgeCountAux_eq_sum (l : List NodeSchema) :
    edgeCountAux l = (l.map (fun n => n.deps.length)).sum := by
  induction l with
  | nil => rfl
  | cons n rest ih => simp [edgeCountAux, ih]

/-- C9: `graphComplexity` returns `nodeCount + edgeCount` where the edge
count sums, over all nodes, the number of non-empty dependency specifiers;
an absent, empty-string, or empty-list `inputSrc` contributes zero edges; the
one-node one-edge example yields 2 and the three-node four-edge example
yields 7. -/
theorem c9_graph_complexity (d : GraphSchema) (name ty : String) :
    graphComplexity d = d.nodes.length + (d.nodes.map (fun n => n.deps.length)).sum ∧
    NodeSchema.deps ⟨name, ty, InputSrc.absent⟩ = [] ∧
    NodeSchema.deps ⟨name, ty, InputSrc.single ""⟩ = [] ∧
    NodeSchema.deps ⟨name, ty, InputSrc.strings []⟩ = [] ∧
    graphComplexity dComplexitySimple = 2 ∧
    graphComplexity dComplexityLarger = 7 := by
  refine ⟨?_, rfl, rfl, rfl, rfl, rfl⟩
  simp [graphComplexity, edgeCountAux_eq_sum]

/-- C9 witness: the complexity formula instantiated at the two spec
examples. -/
theorem c9_graph_complexity_witness :
    graphComplexity dComplexitySimple = 2 ∧ graphComplexity dComplexityLarger = 7 :=
  ⟨(c9_graph_complexity dComplexitySimple "n" "t").2.2.2.2.1,
    (c9_graph_complexity dComplexityLarger "n" "t").2.2.2.2.2⟩

/-- C5 counterexample: the claim says an empty specifier is excluded from
lookups entirely, but `OpAdapter` parses the empty string into the flat key
`""` and `predSatisfied` then performs an ordinary snapshot lookup of the
empty key, so the resolved argument depends on the snapshot: a snapshot that
binds the empty key produces a value, the empty snapshot does not. -/
theorem c5_empty_specifier_counterexample :
    resolveParsed [("", JsValue.num 7)] (parsePath "") = some (JsValue.num 7) ∧
    resolveParsed [] (parsePath "") = none ∧
    ¬∀ s : Snapshot, resolveParsed s (parsePath "") = none := by
  refine ⟨rfl, rfl, fun h => ?_⟩
  exact Option.noConfusion
    ((show some (JsValue.num 7) = resolveParsed [("", JsValue.num 7)] (parsePath "") from rfl).trans
      (h [("", JsValue.num 7)]))

/-- C5 amended: an absent specifier list leads to no lookups at all, but an
empty-string specifier is parsed as the flat key `""` and resolved by a
single direct lookup of the empty key in the snapshot (hence it yields the
snapshot's empty-key entry, which is `undefined` whenever no such entry
exists); in both cases the wrapped operator is invoked unconditionally on
every cycle. -/
theorem c5_empty_specifier_amended (s : Snapshot) (a : OpAdapter)
    (f : List (Option JsValue) → Option JsValue) :
    OpAdapter.predSatisfied ⟨f, []⟩ s = f [] ∧
    parsePath "" = ParsedPath.flat "" ∧
    resolveParsed s (parsePath "") = snapGet s "" ∧
    a.predSatisfied s = a.op (a.parsedPaths.map (resolveParsed s)) :=
  ⟨rfl, rfl, rfl, rfl⟩

/-- C5 amended witness: the amended statement instantiated at a concrete
snapshot and adapter. -/
theorem c5_empty_specifier_amended_witness :
    OpAdapter.predSatisfied ⟨fun x => x.headD none, []⟩ [("", JsValue.num 7)] =
        (fun x : List (Option JsValue) => x.headD none) [] ∧
    resolveParsed [("", JsValue.num 7)] (parsePath "") = snapGet [("", JsValue.num 7)] "" :=
  ⟨(c5_empty_specifier_amended [("", JsValue.num 7)]
      ⟨fun x => x.headD none, [""]⟩ (fun x => x.headD none)).1,
    (c5_empty_specifier_amended [("", JsValue.num 7)]
      ⟨fun x => x.headD none, [""]⟩ (fun x => x.headD none)).2.2.1⟩

/-- C6: specifiers are split into parsed form once at construction time and
`predSatisfied` resolves through that stored form; an undotted specifier is
parsed flat and resolved by a single direct lookup; a dotted specifier is
parsed into its dot-segments; and the nested walk short-circuits to no value
as soon as the value after any prefix of the remaining segments is
`undefined`, without faulting (the walk is a total function). -/
theorem c6_parse_once_and_short_circuit (p : String) (s : Snapshot) (p0 : String)
    (rest : List String) (a : OpAdapter) :
    (a.predSatisfied s = a.op ((a.inputPath.map parsePath).map (resolveParsed s))) ∧
    (containsDot p = false → parsePath p = ParsedPath.flat p ∧
      resolveParsed s (parsePath p) = snapGet s p) ∧
    (containsDot p = true → parsePath p = ParsedPath.nested (splitOnDot p)) ∧
    (∀ k : Nat, walkSegs (snapGet s p0) (rest.take k) = none →
      resolveParsed s (ParsedPath.nested (p0 :: rest)) = none) := by
  refine ⟨rfl, ?_, ?_, ?_⟩
  · intro h
    have hflat : parsePath p = ParsedPath.flat p := by simp [parsePath, h]
    refine ⟨hflat, ?_⟩
    rw [hflat]
    rfl
  · intro h
    have hne : p ≠ "" := by
      intro he
      subst he
      exact Bool.noConfusion ((show containsDot "" = false from rfl).symm.trans h)
    simp [parsePath, h, hne]
  · intro k hk
    show walkSegs (snapGet s p0) rest = none
    rw [← List.take_append_drop k rest, walkSegs_append, hk, walkSegs_none]

/-- C6 witness: `tick` is undotted and resolves by one direct lookup;
`tick.price` is parsed into two segments; and walking `a.b.c` against a
snapshot whose `a` has no `b` field short-circuits to no value after the
first missing segment. -/
theorem c6_parse_once_and_short_circuit_witness :
    (containsDot "tick" = false ∧
      resolveParsed snapTick (parsePath "tick") = snapGet snapTick "tick") ∧
    (containsDot "tick.price" = true ∧
      parsePath "tick.price" = ParsedPath.nested ["tick", "price"]) ∧
    (walkSegs (snapGet snapShort "a") (["b", "c"].take 1) = none ∧
      resolveParsed snapShort (ParsedPath.nested ("a" :: ["b", "c"])) = none) := by
  refine ⟨⟨rfl, ?_⟩, ⟨rfl, ?_⟩, ⟨rfl, ?_⟩⟩
  · exact ((c6_parse_once_and_short_circuit "tick" snapTick "a" [] ⟨fun x => none, []⟩).2.1 rfl).2
  · have h := (c6_parse_once_and_short_circuit "tick.price" snapTick "a" []
      ⟨fun x => none, []⟩).2.2.1 rfl
    rw [h]
    rfl
  · exact (c6_parse_once_and_short_circuit "p" snapShort "a" ["b", "c"]
      ⟨fun x => none, []⟩).2.2.2 1 rfl

/-- every unknown-type-phase error is an `unknown_type` variant. -/
theorem unknownTypeErrors_shape (d : GraphSchema) (reg : Registry) :
    ∀ e ∈ unknownTypeErrors d reg, ∃ n t, e = GraphError.unknown_type n t := by
  intro e he
  obtain ⟨n, hn, hf⟩ := List.mem_filterMap.mp he
  by_cases h : regHas reg n.type
  · simp [h] at hf
  · simp [h] at hf
    exact ⟨n.name, n.type, hf.symm⟩

/-- C2: validation runs structure, unknown-type, cycle, and unreachable in
strict order and reports only the first failing phase; in particular, when
the structure phase passes and at least one node has an unregistered type,
the result carries exactly the unknown-type errors, all tagged
`unknown_type`, even if the descriptor also holds a cycle or unreachable
nodes. -/
theorem c2_first_phase_only (d : GraphSchema) (reg : Registry)
    (h1 : structureErrors d = []) (h2 : unknownTypeErrors d reg ≠ []) :
    validateGraphSchema d reg = ⟨false, unknownTypeErrors d reg⟩ ∧
    ∀ e ∈ (validateGraphSchema d reg).errors,
      ∃ n t, e = GraphError.unknown_type n t := by
  have hval : validateGraphSchema d reg = ⟨false, unknownTypeErrors d reg⟩ := by
    unfold validateGraphSchema
    rw [h1]
    cases hu : unknownTypeErrors d reg with
    | nil => exact absurd hu h2
    | cons e es => rfl
  refine ⟨hval, ?_⟩
  rw [hval]
  exact unknownTypeErrors_shape d reg

/-- C2 witness: a two-node descriptor whose nodes both carry the
unregistered type `Unknown` and form a dependency cycle reports only the two
`unknown_type` errors. -/
theorem c2_first_phase_only_witness :
    (structureErrors dUnknownCycle = [] ∧
      unknownTypeErrors dUnknownCycle regEmpty ≠ []) ∧
    (validateGraphSchema dUnknownCycle regEmpty =
        ⟨false, unknownTypeErrors dUnknownCycle regEmpty⟩ ∧
      ∀ e ∈ (validateGraphSchema dUnknownCycle regEmpty).errors,
        ∃ n t, e = GraphError.unknown_type n t) :=
  ⟨⟨by decide, by decide⟩,
    c2_first_phase_only dUnknownCycle regEmpty (by decide) (by decide)⟩

/-- C3: when the structure, unknown-type, and cycle phases all pass and some
dependency specifier's first segment resolves to neither the root nor any
node, validation returns exactly one `unreachable` error whose `nodes` list
is the union of every unreachable node name and every unresolvable
referenced identifier. -/
theorem c3_single_merged_unreachable (d : GraphSchema) (reg : Registry)
    (h1 : structureErrors d = []) (h2 : unknownTypeErrors d reg = [])
    (h3 : cycleCheck d = none) (h4 : unresolvedIds d ≠ []) :
    validateGraphSchema d reg =
      ⟨false, [GraphError.unreachable (unreachableNodes d ++ unresolvedIds d)]⟩ ∧
    ∀ x, x ∈ unreachableNodes d ++ unresolvedIds d ↔
      ((∃ n, n ∈ d.nodes ∧ n.name = x ∧ ¬ x ∈ reachSet d) ∨
        x ∈ unresolvedIds d) := by
  constructor
  · have hne : unreachableNodes d ++ unresolvedIds d ≠ [] := by
      intro he
      exact h4 (List.append_eq_nil.mp he).2
    unfold validateGraphSchema
    rw [h1, h2, h3]
    unfold unreachableErrors
    rw [if_neg hne]
  · intro x
    rw [List.mem_append]
    constructor
    · rintro (hx | hx)
      · left
        obtain ⟨n, hn, hname⟩ := List.mem_map.mp hx
        obtain ⟨hmem, hq⟩ := List.mem_filter.mp hn
        refine ⟨n, hmem, hname, ?_⟩
        intro hr
        rw [← hname] at hr
        rw [Bool.not_eq_true', ← Bool.not_eq_true] at hq
        exact hq (List.elem_iff.mpr hr)
      · right
        exact hx
    · rintro (⟨n, hmem, hname, hnr⟩ | hx)
      · left
        refine List.mem_map.mpr ⟨n, List.mem_filter.mpr ⟨hmem, ?_⟩, hname⟩
        rw [hname]
        rw [Bool.not_eq_true', ← Bool.not_eq_true]
        exact fun hc => hnr (List.elem_iff.mp hc)
      · right
        exact hx

/-- C3 witness: the descriptor with one node `node1` depending on the two
nonexistent identifiers `missing1` and `missing2` yields a single merged
`unreachable` error listing the node and both identifiers. -/
theorem c3_single_merged_unreachable_witness :
    (structureErrors dMultiMissing = [] ∧
      unknownTypeErrors dMultiMissing regOp = [] ∧
      cycleCheck dMultiMissing = none ∧ unresolvedIds dMultiMissing ≠ []) ∧
    validateGraphSchema dMultiMissing regOp =
      ⟨false, [GraphError.unreachable ["node1", "missing1", "missing2"]]⟩ := by
  refine ⟨⟨by decide, by decide, by decide, by decide⟩, ?_⟩
  have h := (c3_single_merged_unreachable dMultiMissing regOp (by decide) (by decide)
    (by decide) (by decide)).1
  rw [h]
  rfl

/-- C4: the three-node cycle descriptor (root `a`; `a` depends on `c`, `b` on
`a`, `c` on `b`) validates to `valid: false` with exactly one error, tagged
`cycle`, whose node list is non-empty and consists of nodes that all lie on a
discovered cycle of the dependency graph. -/
theorem c4_cycle_detected :
    ∃ ns, validateGraphSchema dCycle regOp = ⟨false, [GraphError.cycle ns]⟩ ∧
      ns ≠ [] ∧ ∃ l, isCycleList dCycle l = true ∧ ∀ x ∈ ns, x ∈ l := by
  refine ⟨["c", "b", "a"], by decide, by decide, ["a", "b", "c"], by decide, by decide⟩

/-- the loader walk fails on the first node (in file order) whose declared
type has no registry entry, with the error message naming type and node. -/
theorem fromJSONAux_error (reg : Registry) (l : List NodeSchema)
    (h : ∃ n, n ∈ l ∧ regGet reg n.type = none) :
    ∃ n, n ∈ l ∧ regGet reg n.type = none ∧
      fromJSONAux reg l = Except.error (unknownTypeMsg n.type n.name) := by
  induction l with
  | nil =>
    obtain ⟨n, hn, _⟩ := h
    cases hn
  | cons n0 rest ih =>
    cases hget : regGet reg n0.type with
    | none =>
      exact ⟨n0, List.mem_cons_self n0 rest, hget, by simp [fromJSONAux, hget]⟩
    | some c =>
      obtain ⟨n, hn, hnone⟩ := h
      rcases List.mem_cons.mp hn with rfl | htail
      · rw [hget] at hnone
        cases hnone
      · obtain ⟨n2, hn2, hnone2, herr⟩ := ih ⟨n, htail, hnone⟩
        refine ⟨n2, List.mem_cons_of_mem n0 hn2, hnone2, ?_⟩
        simp [fromJSONAux, hget, herr]

/-- C7: whenever a descriptor declares at least one node with an unregistered
type, `Graph.fromJSON` fails the whole load synchronously with the error
naming the unresolved type and the offending node, and no graph (partial or
otherwise) is produced. -/
theorem c7_fromjson_fail_fast (d : GraphSchema) (reg : Registry)
    (h : ∃ n, n ∈ d.nodes ∧ regGet reg n.type = none) :
    ∃ n, n ∈ d.nodes ∧ regGet reg n.type = none ∧
      fromJSON d reg = Except.error (unknownTypeMsg n.type n.name) ∧
      ∀ g : Graph, fromJSON d reg ≠ Except.ok g := by
  obtain ⟨n, hn, hnone, herr⟩ := fromJSONAux_error reg d.nodes h
  have hf : fromJSON d reg = Except.error (unknownTypeMsg n.type n.name) := by
    unfold fromJSON
    rw [herr]
  exact ⟨n, hn, hnone, hf, fun g hg => by rw [hf] at hg; cases hg⟩

/-- C7 witness: the test descriptor with node `ema` of type
`UnknownIndicator` against the empty registry produces exactly the
documented error string. -/
theorem c7_fromjson_fail_fast_witness :
    (∃ n, n ∈ dUnknownInd.nodes ∧ regGet regEmpty n.type = none) ∧
    fromJSON dUnknownInd regEmpty =
      Except.error (unknownTypeMsg "UnknownIndicator" "ema") := by
  have hex : ∃ n, n ∈ dUnknownInd.nodes ∧ regGet regEmpty n.type = none :=
    ⟨⟨"ema", "UnknownIndicator", InputSrc.strings ["tick"]⟩, by decide, rfl⟩
  refine ⟨hex, ?_⟩
  obtain ⟨n, hn, -, herr, -⟩ := c7_fromjson_fail_fast dUnknownInd regEmpty hex
  have hn2 : n = ⟨"ema", "UnknownIndicator", InputSrc.strings ["tick"]⟩ := by
    simp [dUnknownInd] at hn
    exact hn
  subst hn2
  exact herr

/-! ### Executor ordering -/

theorem mem_callbacksOf (cbs : Nat → Nat) (e : Nat) (c : Nat × Nat)
    (h : c ∈ callbacksOf cbs e) : c.1 = e := by
  obtain ⟨i, _, rfl⟩ := List.mem_map.mp h
  rfl

theorem pairwise_callbacksOf (cbs : Nat → Nat) (e : Nat) :
    List.Pairwise CbBefore (callbacksOf cbs e) := by
  unfold callbacksOf
  refine List.Pairwise.map _ (fun a b hab => Or.inr ⟨rfl, hab⟩) ?_
  exact List.pairwise_lt_range (cbs e)

theorem inv_init : EngInv initEngine := by
  constructor <;> simp [initEngine]

theorem inv_step {cbs : Nat → Nat} {s t : EngineState}
    (hstep : EngStep cbs s t) (inv : EngInv s) : EngInv t := by
  cases hstep with
  | submit =>
    refine ⟨inv.ordered, ?_, ?_, ?_, ?_⟩
    · intro c hc f hf
      rcases List.mem_append.mp hf with hf | hf
      · exact inv.beforePending c hc f hf
      · rw [List.mem_singleton.mp hf]
        exact inv.cbLt c hc
    · refine List.pairwise_append.mpr ⟨inv.pendingSorted, List.pairwise_singleton _ _, ?_⟩
      intro a ha b hb
      rw [List.mem_singleton.mp hb]
      exact inv.pendingLt a ha
    · intro f hf
      rcases List.mem_append.mp hf with hf | hf
      · exact Nat.lt_succ_of_lt (inv.pendingLt f hf)
      · rw [List.mem_singleton.mp hf]
        exact Nat.lt_succ_self _
    · intro c hc
      exact Nat.lt_succ_of_lt (inv.cbLt c hc)
  | startPass e rest hcur hp =>
    have hlog : s.log ++ s.current = s.log := by rw [hcur, List.append_nil]
    have hepend : e ∈ s.pending := by
      rw [hp]
      exact List.mem_cons_self e rest
    refine ⟨?_, ?_, ?_, ?_, ?_⟩
    · refine List.pairwise_append.mpr ⟨?_, pairwise_callbacksOf cbs e, ?_⟩
      · have h := inv.ordered
        rw [hlog] at h
        exact h
      · intro a ha b hb
        have hb1 := mem_callbacksOf cbs e b hb
        have ha2 : a ∈ s.log ++ s.current := by
          rw [hlog]
          exact ha
        exact Or.inl (hb1 ▸ inv.beforePending a ha2 e hepend)
    · intro c hc f hf
      rcases List.mem_append.mp hc with hc | hc
      · refine inv.beforePending c ?_ f ?_
        · rw [hlog]
          exact hc
        · rw [hp]
          exact List.mem_cons_of_mem e hf
      · have hps := inv.pendingSorted
        rw [hp] at hps
        rw [mem_callbacksOf cbs e c hc]
        exact (List.pairwise_cons.mp hps).1 f hf
    · have hps := inv.pendingSorted
      rw [hp] at hps
      exact (List.pairwise_cons.mp hps).2
    · intro f hf
      refine inv.pendingLt f ?_
      rw [hp]
      exact List.mem_cons_of_mem e hf
    · intro c hc
      rcases List.mem_append.mp hc with hc | hc
      · refine inv.cbLt c ?_
        rw [hlog]
        exact hc
      · rw [mem_callbacksOf cbs e c hc]
        exact inv.pendingLt e hepend
  | dispatch c rest hc =>
    have hkey : (s.log ++ [c]) ++ rest = s.log ++ s.current := by
      rw [hc, List.append_assoc, List.singleton_append]
    refine ⟨?_, ?_, inv.pendingSorted, inv.pendingLt, ?_⟩
    · have h := inv.ordered
      rw [← hkey] at h
      exact h
    · intro c2 hc2 f hf
      refine inv.beforePending c2 ?_ f hf
      rw [← hkey]
      exact hc2
    · intro c2 hc2
      refine inv.cbLt c2 ?_
      rw [← hkey]
      exact hc2

theorem reachable_inv (cbs : Nat → Nat) (s : EngineState)
    (h : Reachable cbs s) : EngInv s := by
  induction h with
  | refl => exact inv_init
  | tail hab hbc ih => exact inv_step hbc ih

/-- C1: in every reachable state of the executor's FIFO pass/callback queue,
the dispatched-callback log is strictly ordered: any callback of event N
appears before every callback of event N+1 (indeed of any later event), and
callbacks of the same event appear in node-visit order — even when events
are submitted without awaiting, since submissions interleave arbitrarily
with dispatching in the step relation. -/
theorem c1_callbacks_in_event_order (cbs : Nat → Nat) (s : EngineState)
    (h : Reachable cbs s) : List.Pairwise CbBefore s.log :=
  (List.pairwise_append.mp (reachable_inv cbs s h).ordered).1

/-- C1 witness: a concrete run with two callbacks per event — submit event 0,
submit event 1 without awaiting, drain event 0's two callbacks, start event
1 and dispatch its first callback — reaches a state whose log is ordered. -/
theorem c1_callbacks_in_event_order_witness :
    Reachable cbsTwo engWitState ∧ List.Pairwise CbBefore engWitState.log := by
  have h1 : EngStep cbsTwo ⟨[], [], [], 0⟩ ⟨[0], [], [], 1⟩ := EngStep.submit _
  have h2 : EngStep cbsTwo ⟨[0], [], [], 1⟩ ⟨[0, 1], [], [], 2⟩ := EngStep.submit _
  have h3 : EngStep cbsTwo ⟨[0, 1], [], [], 2⟩ ⟨[1], [(0, 0), (0, 1)], [], 2⟩ :=
    EngStep.startPass _ 0 [1] rfl rfl
  have h4 : EngStep cbsTwo ⟨[1], [(0, 0), (0, 1)], [], 2⟩ ⟨[1], [(0, 1)], [(0, 0)], 2⟩ :=
    EngStep.dispatch _ (0, 0) [(0, 1)] rfl
  have h5 : EngStep cbsTwo ⟨[1], [(0, 1)], [(0, 0)], 2⟩ ⟨[1], [], [(0, 0), (0, 1)], 2⟩ :=
    EngStep.dispatch _ (0, 1) [] rfl
  have h6 : EngStep cbsTwo ⟨[1], [], [(0, 0), (0, 1)], 2⟩
      ⟨[], [(1, 0), (1, 1)], [(0, 0), (0, 1)], 2⟩ :=
    EngStep.startPass _ 1 [] rfl rfl
  have h7 : EngStep cbsTwo ⟨[], [(1, 0), (1, 1)], [(0, 0), (0, 1)], 2⟩ engWitState :=
    EngStep.dispatch _ (1, 0) [(1, 1)] rfl
  have hreach : Reachable cbsTwo engWitState :=
    Relation.ReflTransGen.head h1 (Relation.ReflTransGen.head h2
      (Relation.ReflTransGen.head h3 (Relation.ReflTransGen.head h4
        (Relation.ReflTransGen.head h5 (Relation.ReflTransGen.head h6
          (Relation.ReflTransGen.head h7 Relation.ReflTransGen.refl))))))
  exact ⟨hreach, c1_callbacks_in_event_order cbsTwo engWitState hreach⟩

end TradingIndi
